import Mathlib

/-!
Verification of the aiNovel narrative-generation engine against its
natural-language specification.  Each section shallowly embeds one part of
the Python source (`src/ainovel/...`) as executable Lean definitions and
proves or refutes the corresponding specification claim.
-/

namespace AiNovel

/- ------------------------------------------------------------------ -/
/- §1  Workflow orchestrator  (src/ainovel/workflow/orchestrator.py)   -/
/- ------------------------------------------------------------------ -/

/-- `WorkflowStatus` enum from `src/ainovel/db/novel.py`. -/
inductive WorkflowStatus where
  | created
  | planning
  | worldBuilding
  | outline
  | detailOutline
  | writing
  | qualityCheck
  | completed
deriving DecidableEq, Repr

/-- The project fields touched by the orchestrator's stage/edit operations
(`Novel` model): the narrative artifacts and the workflow cursor. -/
structure Novel where
  planningContent : Option String
  worldBuildingRaw : Option String
  workflowStatus : WorkflowStatus
  currentStep : Nat
deriving DecidableEq, Repr

/-- The orchestrator operations the claim quantifies over: the success path
of each stage method `step_1_planning` .. `step_6_quality_check` (including
the batch variants of steps 4 and 6, which also commit the cursor), and the
explicit edit operations `step_1_update` / `step_2_update`.  Generation
results produced by the model are carried as payloads. -/
inductive OrchOp where
  | step1Planning (planning : String)
  | step1Update (text : String)
  | step2WorldBuilding (parseFailed : Bool) (raw : String)
  | step2Update (text : String)
  | step3Outline
  | step4DetailOutline
  | step4BatchDetailOutline
  | step5Writing
  | step6QualityCheck
  | step6BatchQualityCheck
deriving DecidableEq, Repr

/-- State change of one successful orchestrator operation, transcribed from
`orchestrator.py` (`novel.workflow_status = ...; novel.current_step = ...`).
Steps 1-3 and both batch steps assign `current_step` unconditionally; the
single-chapter steps 4-6 assign only under `if novel.current_step < N`. -/
def applyOrchOp (op : OrchOp) (n : Novel) : Novel :=
  match op with
  | .step1Planning planning =>
      { n with planningContent := some planning,
               workflowStatus := .planning, currentStep := 1 }
  | .step1Update text =>
      { n with planningContent := some text,
               workflowStatus := .planning, currentStep := 1 }
  | .step2WorldBuilding parseFailed raw =>
      { n with worldBuildingRaw := if parseFailed then some raw else n.worldBuildingRaw,
               workflowStatus := .worldBuilding, currentStep := 2 }
  | .step2Update text =>
      { n with worldBuildingRaw := some text,
               workflowStatus := .worldBuilding, currentStep := 2 }
  | .step3Outline =>
      { n with workflowStatus := .outline, currentStep := 3 }
  | .step4DetailOutline =>
      if n.currentStep < 4 then
        { n with workflowStatus := .detailOutline, currentStep := 4 }
      else n
  | .step4BatchDetailOutline =>
      { n with workflowStatus := .detailOutline, currentStep := 4 }
  | .step5Writing =>
      if n.currentStep < 5 then
        { n with workflowStatus := .writing, currentStep := 5 }
      else n
  | .step6QualityCheck =>
      if n.currentStep < 6 then
        { n with workflowStatus := .qualityCheck, currentStep := 6 }
      else n
  | .step6BatchQualityCheck =>
      { n with workflowStatus := .qualityCheck, currentStep := 6 }

/-- A freshly created project: no artifacts, stage `created`, step 0. -/
def freshNovel : Novel :=
  { planningContent := none, worldBuildingRaw := none,
    workflowStatus := .created, currentStep := 0 }

/-- C1 counterexample: a successful step 4 raises `current_step` to 4, after
which a successful step 1 (re-planning) assigns `current_step = 1`
unconditionally — the cursor decreases, contradicting the claim that a
successful stage N sets `current_step` to `max(current_step, N)`.  Moreover
the explicit edit `step_1_update` also assigns `current_step = 1` instead of
leaving it unchanged. -/
theorem C1_counterexample :
    (applyOrchOp (.step1Planning ("plan")) (applyOrchOp .step4DetailOutline freshNovel)).currentStep
      < (applyOrchOp .step4DetailOutline freshNovel).currentStep
    ∧ (applyOrchOp (.step1Update ("edited")) (applyOrchOp .step4DetailOutline freshNovel)).currentStep
      ≠ (applyOrchOp .step4DetailOutline freshNovel).currentStep :=
  ⟨by decide, by decide⟩

/-- C1 (amended): the exact effect of every orchestrator operation on
`current_step`.  Only the single-chapter steps 4-6 use the
`max(current_step, N)` rule and hence never decrease the cursor; steps 1-3,
the batch steps 4/6, and both explicit edit operations assign their stage
number unconditionally, so the cursor can decrease when an earlier stage is
re-run or its artifact is edited. -/
theorem C1_current_step_effect (n : Novel) (op : OrchOp) :
    (applyOrchOp op n).currentStep =
      match op with
      | .step1Planning _ => 1
      | .step1Update _ => 1
      | .step2WorldBuilding _ _ => 2
      | .step2Update _ => 2
      | .step3Outline => 3
      | .step4DetailOutline => max n.currentStep 4
      | .step4BatchDetailOutline => 4
      | .step5Writing => max n.currentStep 5
      | .step6QualityCheck => max n.currentStep 6
      | .step6BatchQualityCheck => 6 := by
  cases op <;> first
    | rfl
    | (simp only [applyOrchOp]; split <;> (simp_all; try omega))

/- ------------------------------------------------------------------ -/
/- §2  Plot-arc tracker  (src/ainovel/memory/plot_arc.py)              -/
/- ------------------------------------------------------------------ -/

/-- `PlotArcStatus` enum. -/
inductive PlotArcStatus where
  | planted
  | developing
  | resolved
  | abandoned
deriving DecidableEq, Repr

/-- The `PlotArc` fields relevant to the lifecycle operations. -/
structure PlotArc where
  name : String
  status : PlotArcStatus
  plantedChapter : Option Int
  resolvedChapter : Option Int
  notes : Option String
deriving DecidableEq, Repr

/-- `PlotArcTracker.plant`: creates an arc with status `planted`;
`resolved_chapter` starts unset. -/
def plant (name : String) (plantedChapter : Option Int)
    (notes : Option String) : PlotArc :=
  { name := name, status := .planted, plantedChapter := plantedChapter,
    resolvedChapter := none, notes := notes }

/-- `PlotArcTracker.develop`: sets status `developing`, optionally updates
notes. -/
def develop (arc : PlotArc) (notes : Option String) : PlotArc :=
  { arc with status := .developing,
             notes := match notes with | some t => some t | none => arc.notes }

/-- `PlotArcTracker.resolve`: sets status `resolved`; assigns
`resolved_chapter` only when the caller passes one (`if resolved_chapter is
not None`).  No relation to `planted_chapter` is checked. -/
def resolve (arc : PlotArc) (resolvedChapter : Option Int) : PlotArc :=
  { arc with status := .resolved,
             resolvedChapter :=
               match resolvedChapter with
               | some c => some c
               | none => arc.resolvedChapter }

/-- `PlotArcTracker.abandon`: sets status `abandoned`. -/
def abandon (arc : PlotArc) : PlotArc :=
  { arc with status := .abandoned }

/-- C9 counterexample: both halves of the claimed invariant fail on states
reachable through the tracker operations.  Resolving a freshly planted arc
without a chapter leaves `resolved_chapter` unset while status is
`resolved`; resolving with chapter 3 an arc planted at chapter 5 stores
`resolved_chapter = 3 < planted_chapter = 5`. -/
theorem C9_counterexample :
    (resolve (plant ("seed") (some 5) none) none).status = .resolved
    ∧ (resolve (plant ("seed") (some 5) none) none).resolvedChapter = none
    ∧ (resolve (plant ("seed") (some 5) none) (some 3)).status = .resolved
    ∧ (resolve (plant ("seed") (some 5) none) (some 3)).plantedChapter = some 5
    ∧ (resolve (plant ("seed") (some 5) none) (some 3)).resolvedChapter = some 3
    ∧ ¬ (5 : Int) ≤ 3 := by
  refine ⟨rfl, rfl, rfl, rfl, rfl, by decide⟩

/-- C9 (amended): the exact behaviour of `resolve` — it always sets the
status to `resolved` and stores the given `resolved_chapter` only when one
is passed, leaving `planted_chapter` untouched; the tracker enforces no
ordering between the two chapter ordinals, so a resolved arc may have
`resolved_chapter` unset or smaller than `planted_chapter`. -/
theorem C9_resolve_effect (arc : PlotArc) (rc : Option Int) :
    (resolve arc rc).status = .resolved
    ∧ (resolve arc rc).plantedChapter = arc.plantedChapter
    ∧ (resolve arc rc).resolvedChapter =
        (match rc with | some c => some c | none => arc.resolvedChapter) := by
  refine ⟨rfl, rfl, rfl⟩

/- ------------------------------------------------------------------ -/
/- §3  Cost ledger  (src/ainovel/llm/cost_tracker.py)                  -/
/- ------------------------------------------------------------------ -/

/-- Token usage dictionary; `add_cost` reads `usage.get("total_tokens", 0)`. -/
structure Usage where
  totalTokens : Nat
deriving DecidableEq, Repr

/-- One entry of a day's `calls` list (timestamp omitted: wall-clock only). -/
structure CallRecord where
  model : String
  taskType : String
  cost : ℚ
  usage : Usage
deriving DecidableEq, Repr

/-- Per-day aggregate record of the ledger JSON document. -/
structure DayRecord where
  totalCost : ℚ
  totalTokens : Nat
  callCount : Nat
  calls : List CallRecord
deriving DecidableEq, Repr

/-- The fresh record inserted when a day key is first seen. -/
def emptyDayRecord : DayRecord :=
  { totalCost := 0, totalTokens := 0, callCount := 0, calls := [] }

/-- `CostTracker` state: the configured daily budget and the on-disk records
document, a JSON object keyed by day string (modelled as an association
list in insertion order).  Monetary amounts are modelled as rationals. -/
structure CostTracker where
  dailyBudget : ℚ
  records : List (String × DayRecord)
deriving DecidableEq, Repr

/-- The distinguishable `BudgetExceededError`. -/
inductive CostError where
  | budgetExceeded
deriving DecidableEq, Repr

/-- Dictionary lookup `records.get(day)`. -/
def lookupDay (records : List (String × DayRecord)) (day : String) :
    Option DayRecord :=
  match records with
  | [] => none
  | (k, v) :: rest => if k = day then some v else lookupDay rest day

/-- Dictionary update: insert a fresh record if the key is absent
(`if today_key not in self.records: ...`), then mutate the day's record. -/
def updateDay (records : List (String × DayRecord)) (day : String)
    (f : DayRecord → DayRecord) : List (String × DayRecord) :=
  match records with
  | [] => [(day, f emptyDayRecord)]
  | (k, v) :: rest =>
      if k = day then (k, f v) :: rest else (k, v) :: updateDay rest day f

/-- `records.get(today_key, {})` with aggregate defaults. -/
def dayRecordOf (t : CostTracker) (day : String) : DayRecord :=
  (lookupDay t.records day).getD emptyDayRecord

/-- `get_today_cost`: today's `total_cost`, defaulting to 0. -/
def get_today_cost (t : CostTracker) (today : String) : ℚ :=
  (dayRecordOf t today).totalCost

/-- `check_budget(estimated_cost)`: `today_cost + estimated_cost <=
daily_budget`. -/
def check_budget (t : CostTracker) (today : String) (estimatedCost : ℚ) : Bool :=
  get_today_cost t today + estimatedCost ≤ t.dailyBudget

/-- `add_cost(cost, usage, model, task_type)`: raises `BudgetExceededError`
before any mutation when the projected total exceeds the budget (the
tracker object is returned untouched); otherwise appends one call record to
today's `calls` and updates the three aggregates.  The current day key is a
parameter (the source reads the process-local wall clock). -/
def add_cost (t : CostTracker) (today : String) (cost : ℚ) (usage : Usage)
    (model taskType : String) : CostTracker × Option CostError :=
  if ¬ check_budget t today cost then
    (t, some .budgetExceeded)
  else
    ({ t with
        records := updateDay t.records today (fun r =>
          { totalCost := r.totalCost + cost,
            totalTokens := r.totalTokens + usage.totalTokens,
            callCount := r.callCount + 1,
            calls := r.calls ++ [⟨model, taskType, cost, usage⟩] }) },
     none)

theorem lookupDay_updateDay_self (records : List (String × DayRecord))
    (day : String) (f : DayRecord → DayRecord) :
    lookupDay (updateDay records day f) day =
      some (f ((lookupDay records day).getD emptyDayRecord)) := by
  induction records with
  | nil => simp [lookupDay, updateDay]
  | cons hd tl ih =>
      obtain ⟨k, v⟩ := hd
      by_cases hk : k = day
      · simp [lookupDay, updateDay, hk]
      · simp [lookupDay, updateDay, hk, ih]

theorem lookupDay_updateDay_ne (records : List (String × DayRecord))
    (day d : String) (f : DayRecord → DayRecord) (h : d ≠ day) :
    lookupDay (updateDay records day f) d = lookupDay records d := by
  induction records with
  | nil => simp [lookupDay, updateDay, Ne.symm h]
  | cons hd tl ih =>
      obtain ⟨k, v⟩ := hd
      by_cases hk : k = day
      · subst hk
        simp [lookupDay, updateDay, Ne.symm h]
      · simp [lookupDay, updateDay, hk, ih]

/-- C2: budget enforcement of `add_cost`.  When today's total plus the new
cost exceeds the daily budget, the call fails with the distinguishable
budget-exceeded error and the ledger state is returned completely
unchanged.  Otherwise exactly one entry is appended to today's `calls`,
today's `total_cost` grows by `cost`, `total_tokens` by the usage total and
`call_count` by one, every other day's record is untouched, and the budget
is unchanged.  A cost landing exactly on the budget is accepted, since the
comparison is `today_total + cost ≤ daily_budget`. -/
theorem C2_add_cost_spec (t : CostTracker) (today : String) (cost : ℚ)
    (u : Usage) (model task : String) :
    (t.dailyBudget < get_today_cost t today + cost →
      add_cost t today cost u model task = (t, some CostError.budgetExceeded))
    ∧ (get_today_cost t today + cost ≤ t.dailyBudget →
      (add_cost t today cost u model task).2 = none
      ∧ (dayRecordOf (add_cost t today cost u model task).1 today).calls
          = (dayRecordOf t today).calls ++ [⟨model, task, cost, u⟩]
      ∧ (dayRecordOf (add_cost t today cost u model task).1 today).totalCost
          = (dayRecordOf t today).totalCost + cost
      ∧ (dayRecordOf (add_cost t today cost u model task).1 today).totalTokens
          = (dayRecordOf t today).totalTokens + u.totalTokens
      ∧ (dayRecordOf (add_cost t today cost u model task).1 today).callCount
          = (dayRecordOf t today).callCount + 1
      ∧ (add_cost t today cost u model task).1.dailyBudget = t.dailyBudget
      ∧ ∀ d, d ≠ today →
          lookupDay (add_cost t today cost u model task).1.records d
            = lookupDay t.records d) := by
  constructor
  · intro hover
    have hc : ¬ check_budget t today cost := by
      simp only [check_budget, decide_eq_true_eq]
      exact not_le.mpr hover
    simp [add_cost, hc]
  · intro hle
    have hc : check_budget t today cost := by
      simp only [check_budget, decide_eq_true_eq]
      exact hle
    refine ⟨by simp [add_cost, hc], ?_, ?_, ?_, ?_, by simp [add_cost, hc], ?_⟩
    · simp [add_cost, hc, dayRecordOf, lookupDay_updateDay_self]
    · simp [add_cost, hc, dayRecordOf, lookupDay_updateDay_self]
    · simp [add_cost, hc, dayRecordOf, lookupDay_updateDay_self]
    · simp [add_cost, hc, dayRecordOf, lookupDay_updateDay_self]
    · intro d hd
      simp [add_cost, hc, lookupDay_updateDay_ne _ _ _ _ hd]

/-- Concrete instances of both branches of `C2_add_cost_spec`: on an empty
ledger with budget 5, adding cost exactly 5 is accepted; adding cost 6
fails with the budget error and leaves the tracker unchanged. -/
theorem C2_add_cost_spec_witness :
    (add_cost ⟨5, []⟩ ("2026-10-12") 5 ⟨1234⟩ ("gpt-4o-mini") ("generation")).2 = none
    ∧ add_cost ⟨5, []⟩ ("2026-10-12") 6 ⟨1234⟩ ("gpt-4o-mini") ("generation")
        = (⟨5, []⟩, some CostError.budgetExceeded) :=
  ⟨((C2_add_cost_spec ⟨5, []⟩ ("2026-10-12") 5 ⟨1234⟩ ("gpt-4o-mini")
      ("generation")).2 (by norm_num [get_today_cost, dayRecordOf, lookupDay,
        emptyDayRecord])).1,
   (C2_add_cost_spec ⟨5, []⟩ ("2026-10-12") 6 ⟨1234⟩ ("gpt-4o-mini")
      ("generation")).1 (by norm_num [get_today_cost, dayRecordOf, lookupDay,
        emptyDayRecord])⟩

/- ------------------------------------------------------------------ -/
/- §4  Chapter-range parsing (src/ainovel/workflow/pipeline_runner.py) -/
/- ------------------------------------------------------------------ -/

/-- `str.split(sep)` for a single-character separator, on the character
list of the string (Lean's `String.splitOn` does not reduce inside the
kernel, so the split is carried out on `String.data`). -/
def splitOnChar (sep : Char) : List Char → List (List Char)
  | [] => [[]]
  | c :: rest =>
      let r := splitOnChar sep rest
      if c = sep then [] :: r
      else
        match r with
        | [] => [[c]]
        | piece :: more => (c :: piece) :: more

/-- `str.strip()`: drop leading and trailing whitespace. -/
def trimChars (cs : List Char) : List Char :=
  ((cs.dropWhile Char.isWhitespace).reverse.dropWhile Char.isWhitespace).reverse

/-- `int(s)` for a `\d+` token: succeeds exactly on nonempty all-digit
strings (the Python `\d` additionally accepts non-ASCII Unicode digits,
which never appear in chapter selectors). -/
def charsToNat? (cs : List Char) : Option Nat :=
  if cs.isEmpty then none
  else if cs.all Char.isDigit then
    some (cs.foldl (fun n c => n * 10 + (c.toNat - ('0').toNat)) 0)
  else none

/-- `re.fullmatch(r"(\d+)-(\d+)", part)`: the whole item is two nonempty
digit runs separated by a single dash. -/
def rangeMatch (part : List Char) : Option (Nat × Nat) :=
  match splitOnChar '-' part with
  | [a, b] =>
      match charsToNat? a, charsToNat? b with
      | some x, some y => some (x, y)
      | _, _ => none
  | _ => none

/-- One loop iteration of `parse_chapter_range` over a stripped item: a
dash-bearing item must fullmatch `(\d+)-(\d+)` with start ≤ end and expands
to `range(start, end + 1)`; otherwise the item must be a digit run. -/
def parseItem (p : List Char) : Except String (List Nat) :=
  if p.contains '-' then
    match rangeMatch p with
    | none => .error ("无效章节范围格式: " ++ String.mk p)
    | some (st, en) =>
        if st > en then .error ("章节范围起始大于结束")
        else .ok (List.range' st (en + 1 - st))
  else
    match charsToNat? p with
    | some n => .ok [n]
    | none => .error ("无效章节范围格式: " ++ String.mk p)

/-- The `indices` accumulation: items are stripped, parsed in order and
concatenated; the first bad item raises `ValueError`. -/
def collectIndices : List (List Char) → Except String (List Nat)
  | [] => .ok []
  | part :: rest =>
      match parseItem (trimChars part) with
      | .error e => .error e
      | .ok ns =>
          match collectIndices rest with
          | .error e => .error e
          | .ok ms => .ok (ns ++ ms)

/-- The de-duplication / bounds filter at the end of `parse_chapter_range`:
`if idx not in seen and 1 <= idx <= total`, preserving first-occurrence
order. -/
def dedupGo (total : Nat) (seen : List Nat) : List Nat → List Nat
  | [] => []
  | idx :: rest =>
      if idx ∉ seen ∧ 1 ≤ idx ∧ idx ≤ total then
        idx :: dedupGo total (idx :: seen) rest
      else dedupGo total seen rest

/-- `parse_chapter_range(chapter_range, total)`: `None` or the empty string
selects every chapter `1..total`; otherwise the comma-separated items are
parsed, de-duplicated, clamped to `[1, total]` and returned sorted
(`sorted(result)`). -/
def parse_chapter_range (chapterRange : Option String) (total : Nat) :
    Except String (List Nat) :=
  match chapterRange with
  | none => .ok (List.range' 1 total)
  | some s =>
      if s.data.isEmpty then .ok (List.range' 1 total)
      else
        match collectIndices (splitOnChar ',' s.data) with
        | .error e => .error e
        | .ok indices =>
            .ok (List.insertionSort (· ≤ ·) (dedupGo total [] indices))

/-- A selector item is well formed when it is a digit run, or a
`start-end` range with `start ≤ end`. -/
def itemWellFormed (p : List Char) : Prop :=
  if p.contains '-' then ∃ st en, rangeMatch p = some (st, en) ∧ st ≤ en
  else ∃ n, charsToNat? p = some n

theorem parseItem_ok_wellFormed (p : List Char) (ns : List Nat)
    (h : parseItem p = .ok ns) : itemWellFormed p := by
  unfold parseItem at h
  unfold itemWellFormed
  by_cases hdash : p.contains '-'
  · rw [if_pos hdash] at h
    rw [if_pos hdash]
    rcases hm : rangeMatch p with _ | ⟨st, en⟩ <;> rw [hm] at h <;> dsimp only at h
    · exact absurd h (by simp)
    · by_cases hgt : st > en
      · rw [if_pos hgt] at h
        exact absurd h (by simp)
      · exact ⟨st, en, rfl, Nat.le_of_not_lt hgt⟩
  · rw [if_neg hdash] at h
    rw [if_neg hdash]
    rcases hn : charsToNat? p with _ | n <;> rw [hn] at h <;> dsimp only at h
    · exact absurd h (by simp)
    · exact ⟨n, rfl⟩

theorem collectIndices_error_of_bad (parts : List (List Char))
    (h : ∃ part ∈ parts, ¬ itemWellFormed (trimChars part)) :
    ∃ e, collectIndices parts = .error e := by
  induction parts with
  | nil => simp at h
  | cons part rest ih =>
      obtain ⟨bad, hmem, hbad⟩ := h
      rcases hp : parseItem (trimChars part) with e | ns
      · exact ⟨e, by simp [collectIndices, hp]⟩
      · have hpartOk : itemWellFormed (trimChars part) :=
          parseItem_ok_wellFormed _ _ hp
        have hbadRest : bad ∈ rest := by
          rcases List.mem_cons.mp hmem with hEq | hRest
          · exact absurd (hEq ▸ hpartOk) hbad
          · exact hRest
        obtain ⟨e, he⟩ := ih ⟨bad, hbadRest, hbad⟩
        exact ⟨e, by simp [collectIndices, hp, he]⟩

theorem dedupGo_spec (total : Nat) (xs : List Nat) :
    ∀ seen, (dedupGo total seen xs).Nodup
      ∧ ∀ x ∈ dedupGo total seen xs, x ∉ seen ∧ 1 ≤ x ∧ x ≤ total := by
  induction xs with
  | nil => intro seen; simp [dedupGo]
  | cons idx rest ih =>
      intro seen
      by_cases hc : idx ∉ seen ∧ 1 ≤ idx ∧ idx ≤ total
      · have hrec := ih (idx :: seen)
        constructor
        · simp only [dedupGo, if_pos hc, List.nodup_cons]
          refine ⟨fun hmem => ?_, hrec.1⟩
          have := (hrec.2 idx hmem).1
          simp at this
        · intro x hx
          simp only [dedupGo, if_pos hc, List.mem_cons] at hx
          rcases hx with hEq | hmem
          · exact hEq ▸ hc
          · have := hrec.2 x hmem
            exact ⟨fun hs => this.1 (List.mem_cons_of_mem _ hs), this.2⟩
      · have hrec := ih seen
        constructor
        · simpa only [dedupGo, if_neg hc] using hrec.1
        · intro x hx
          simp only [dedupGo, if_neg hc] at hx
          exact hrec.2 x hx

theorem sorted_lt_range' (s n : Nat) : (List.range' s n).Sorted (· < ·) := by
  induction n generalizing s with
  | zero => simp [List.range']
  | succ m ih =>
      rw [List.range'_succ]
      refine List.sorted_cons.mpr ⟨?_, ih (s + 1)⟩
      intro b hb
      have := (List.mem_range'_1.mp hb).1
      omega

/-- C8: behaviour of `parse_chapter_range`.  A null or empty selector
yields the full ascending sequence `1..total`; every successful parse is a
strictly increasing (hence duplicate-free) list of ordinals inside
`[1, total]`; and a selector containing a malformed item, or a range whose
start exceeds its end, is rejected with a parse error (a `ValueError`
raised during plan validation, before any task work). -/
theorem C8_parse_chapter_range_spec (total : Nat) :
    parse_chapter_range none total = .ok (List.range' 1 total)
    ∧ parse_chapter_range (some ("")) total = .ok (List.range' 1 total)
    ∧ (∀ s l, parse_chapter_range (some s) total = .ok l →
        l.Sorted (· < ·) ∧ l.Nodup ∧ ∀ x ∈ l, 1 ≤ x ∧ x ≤ total)
    ∧ (∀ s : String, s.data ≠ [] →
        (∃ part ∈ splitOnChar ',' s.data, ¬ itemWellFormed (trimChars part)) →
        ∃ e, parse_chapter_range (some s) total = .error e) := by
  have hrange : (List.range' 1 total).Sorted (· < ·)
      ∧ (List.range' 1 total).Nodup
      ∧ ∀ x ∈ List.range' 1 total, 1 ≤ x ∧ x ≤ total := by
    refine ⟨sorted_lt_range' 1 total, List.nodup_range' 1 total, fun x hx => ?_⟩
    have := List.mem_range'_1.mp hx
    omega
  refine ⟨rfl, rfl, ?_, ?_⟩
  · intro s l h
    simp only [parse_chapter_range] at h
    split at h
    · simp only [Except.ok.injEq] at h
      exact h ▸ hrange
    · rcases hci : collectIndices (splitOnChar ',' s.data) with e | indices <;>
        rw [hci] at h
      · exact absurd h (by simp)
      · simp only [Except.ok.injEq] at h
        subst h
        have hperm := List.perm_insertionSort (· ≤ ·) (dedupGo total [] indices)
        have hdedup := dedupGo_spec total indices []
        have hnodup :
            (List.insertionSort (· ≤ ·) (dedupGo total [] indices)).Nodup :=
          hperm.nodup_iff.mpr (hdedup.1)
        have hsortedLe :
            (List.insertionSort (· ≤ ·) (dedupGo total [] indices)).Sorted (· ≤ ·) :=
          List.sorted_insertionSort (· ≤ ·) (dedupGo total [] indices)
        exact ⟨hsortedLe.lt_of_le hnodup, hnodup,
          fun x hx => ((hdedup.2) x (hperm.mem_iff.mp hx)).2⟩
  · intro s hs hbad
    obtain ⟨e, he⟩ := collectIndices_error_of_bad _ hbad
    refine ⟨e, ?_⟩
    simp only [parse_chapter_range]
    rw [if_neg (by simpa using hs), he]

/-- Concrete instances of `C8_parse_chapter_range_spec`: parsing
`"3,1-2,2"` against 10 chapters yields the strictly increasing
duplicate-free in-range list `[1, 2, 3]`, and the reversed range `"5-2"`
is rejected with a parse error. -/
theorem C8_parse_chapter_range_spec_witness :
    (parse_chapter_range (some ("3,1-2,2")) 10 = .ok [1, 2, 3]
      ∧ ([1, 2, 3] : List Nat).Sorted (· < ·) ∧ ([1, 2, 3] : List Nat).Nodup
      ∧ ∀ x ∈ ([1, 2, 3] : List Nat), 1 ≤ x ∧ x ≤ 10)
    ∧ ∃ e, parse_chapter_range (some ("5-2")) 10 = .error e := by
  have hparse : parse_chapter_range (some ("3,1-2,2")) 10 = .ok [1, 2, 3] := rfl
  refine ⟨⟨hparse, (C8_parse_chapter_range_spec 10).2.2.1 ("3,1-2,2") [1, 2, 3] hparse⟩, ?_⟩
  refine (C8_parse_chapter_range_spec 10).2.2.2 ("5-2") (by decide) ?_
  refine ⟨("5-2").data, by decide, ?_⟩
  intro hwf
  unfold itemWellFormed at hwf
  rw [if_pos (by decide)] at hwf
  obtain ⟨st, en, hm, hle⟩ := hwf
  have h5 : rangeMatch (trimChars ("5-2").data) = some (5, 2) := by decide
  rw [h5] at hm
  simp only [Option.some.injEq, Prod.mk.injEq] at hm
  omega

/- ------------------------------------------------------------------ -/
/- §5  Lorebook engine  (src/ainovel/memory/lorebook.py)               -/
/- ------------------------------------------------------------------ -/

/-- `str.lower()` (ASCII case folding; the keyword corpora are Chinese or
ASCII, where Lean's `Char.toLower` agrees with Python). -/
def lowerChars (cs : List Char) : List Char :=
  cs.map Char.toLower

/-- Python's substring containment `needle in haystack`. -/
def containsChars (needle : List Char) : List Char → Bool
  | [] => needle.isEmpty
  | c :: rest => needle.isPrefixOf (c :: rest) || containsChars needle rest

/-- A lorebook source entry: a WorldItem's or Character's name and its
configured `lorebook_keywords`. -/
structure LoreEntry where
  name : String
  keywords : List String
deriving DecidableEq, Repr

/-- A scan hit (`LorebookEntry`): entry name, the matched keywords, and
`hit_count = len(matched)`. -/
structure LoreHit where
  name : String
  matchedKeywords : List String
  hitCount : Nat
deriving DecidableEq, Repr

/-- The matched keywords of one entry against the lower-cased probe:
`[kw for kw in keywords if kw.strip().lower() in normalized_text]`, where
an entry with an empty keyword list falls back to its name as the single
implicit keyword. -/
def matchedKeywords (normalized : List Char) (e : LoreEntry) : List String :=
  let keywords := if e.keywords.isEmpty then [e.name] else e.keywords
  keywords.filter (fun kw => containsChars (lowerChars (trimChars kw.data)) normalized)

/-- The hit-collection loop shared by `_scan_world_data` and
`_scan_characters`: entries with at least one matched keyword, in insertion
order, each carrying its matched keywords and hit count. -/
def scanHits (normalized : List Char) : List LoreEntry → List LoreHit
  | [] => []
  | e :: rest =>
      let matched := matchedKeywords normalized e
      if matched.isEmpty then scanHits normalized rest
      else ⟨e.name, matched, matched.length⟩ :: scanHits normalized rest

/-- Stable insertion step for descending hit count: the new element goes
after every strictly greater element and before equal ones, matching the
stability of Python's `list.sort(key=..., reverse=True)`. -/
def insertDesc (x : LoreHit) : List LoreHit → List LoreHit
  | [] => [x]
  | y :: ys => if x.hitCount < y.hitCount then y :: insertDesc x ys else x :: y :: ys

/-- Stable sort by `hit_count` descending
(`hits.sort(key=lambda e: e.hit_count, reverse=True)`). -/
def sortDesc : List LoreHit → List LoreHit
  | [] => []
  | x :: xs => insertDesc x (sortDesc xs)

/-- One kind's scan: collect hits, sort by hit count descending (stable),
truncate to the per-kind maximum (`hits[:limit]`). -/
def scanKind (normalized : List Char) (entries : List LoreEntry) (limit : Nat) :
    List LoreHit :=
  (sortDesc (scanHits normalized entries)).take limit

/-- `LorebookEngine.scan(novel_id, text, max_world_entries,
max_character_entries)`: lower-case the probe once, scan the project's
world items and characters separately with their respective maxima. -/
def scan (text : String) (worldEntries charEntries : List LoreEntry)
    (maxWorldEntries maxCharacterEntries : Nat) : List LoreHit × List LoreHit :=
  let normalized := lowerChars text.data
  (scanKind normalized worldEntries maxWorldEntries,
   scanKind normalized charEntries maxCharacterEntries)

theorem insertDesc_perm (x : LoreHit) (l : List LoreHit) :
    (insertDesc x l).Perm (x :: l) := by
  induction l with
  | nil => rfl
  | cons y ys ih =>
      by_cases hlt : x.hitCount < y.hitCount
      · simp only [insertDesc, if_pos hlt]
        exact (ih.cons y).trans (List.Perm.swap x y ys)
      · simp [insertDesc, if_neg hlt]

theorem sortDesc_perm (l : List LoreHit) : (sortDesc l).Perm l := by
  induction l with
  | nil => rfl
  | cons x xs ih => exact (insertDesc_perm x (sortDesc xs)).trans (ih.cons x)

theorem insertDesc_sorted (x : LoreHit) (l : List LoreHit)
    (h : l.Pairwise (fun a b => b.hitCount ≤ a.hitCount)) :
    (insertDesc x l).Pairwise (fun a b => b.hitCount ≤ a.hitCount) := by
  induction l with
  | nil => simp [insertDesc]
  | cons y ys ih =>
      rw [List.pairwise_cons] at h
      by_cases hlt : x.hitCount < y.hitCount
      · simp only [insertDesc, if_pos hlt]
        rw [List.pairwise_cons]
        refine ⟨fun z hz => ?_, ih h.2⟩
        rcases List.mem_cons.mp ((insertDesc_perm x ys).mem_iff.mp hz) with hzx | hzy
        · exact hzx ▸ Nat.le_of_lt hlt
        · exact h.1 z hzy
      · simp only [insertDesc, if_neg hlt]
        rw [List.pairwise_cons]
        refine ⟨fun z hz => ?_, List.pairwise_cons.mpr h⟩
        rcases List.mem_cons.mp hz with hzy | hzys
        · exact hzy ▸ Nat.le_of_not_lt hlt
        · exact Nat.le_trans (h.1 z hzys) (Nat.le_of_not_lt hlt)

theorem sortDesc_sorted (l : List LoreHit) :
    (sortDesc l).Pairwise (fun a b => b.hitCount ≤ a.hitCount) := by
  induction l with
  | nil => simp [sortDesc]
  | cons x xs ih => exact insertDesc_sorted x (sortDesc xs) ih

theorem insertDesc_filter_count (x : LoreHit) (l : List LoreHit) (c : Nat) :
    (insertDesc x l).filter (fun h => h.hitCount = c)
      = if x.hitCount = c then x :: l.filter (fun h => h.hitCount = c)
        else l.filter (fun h => h.hitCount = c) := by
  induction l with
  | nil => by_cases hx : x.hitCount = c <;> simp [insertDesc, hx]
  | cons y ys ih =>
      by_cases hlt : x.hitCount < y.hitCount
      · simp only [insertDesc, if_pos hlt]
        by_cases hx : x.hitCount = c
        · have hy : ¬ y.hitCount = c := by omega
          simp [List.filter_cons, hx, hy, ih]
        · simp [List.filter_cons, hx, ih]
      · simp only [insertDesc, if_neg hlt]
        by_cases hx : x.hitCount = c <;> simp [List.filter_cons, hx]

theorem sortDesc_filter_count (l : List LoreHit) (c : Nat) :
    (sortDesc l).filter (fun h => h.hitCount = c)
      = l.filter (fun h => h.hitCount = c) := by
  induction l with
  | nil => rfl
  | cons x xs ih =>
      by_cases hx : x.hitCount = c <;>
        simp [sortDesc, insertDesc_filter_count, hx, List.filter_cons, ih]

theorem scanHits_eq (normalized : List Char) (entries : List LoreEntry) :
    scanHits normalized entries
      = (entries.filter (fun e => !(matchedKeywords normalized e).isEmpty)).map
          (fun e => ⟨e.name, matchedKeywords normalized e,
            (matchedKeywords normalized e).length⟩) := by
  induction entries with
  | nil => rfl
  | cons e rest ih =>
      by_cases hm : (matchedKeywords normalized e).isEmpty <;>
        simp [scanHits, List.filter_cons, hm, ih]

/-- C7: `scan` per kind.  With `hits` the entries having at least one
case-insensitive keyword match against the probe (a configured
`lorebook_keyword`, or the entry name when the keyword list is empty,
occurring as a substring of the lower-cased probe), in insertion order and
each carrying `hit_count` equal to its number of matched keywords: the
result of each kind is the stable descending sort of `hits` truncated to
that kind's maximum — a permutation of `hits` that is sorted by hit count
descending and preserves the insertion order inside every equal-hit-count
class. -/
theorem C7_scan_spec (text : String) (worldEntries charEntries : List LoreEntry)
    (maxWorldEntries maxCharacterEntries : Nat) :
    scan text worldEntries charEntries maxWorldEntries maxCharacterEntries
      = ((sortDesc (scanHits (lowerChars text.data) worldEntries)).take maxWorldEntries,
         (sortDesc (scanHits (lowerChars text.data) charEntries)).take maxCharacterEntries)
    ∧ (∀ entries : List LoreEntry,
        scanHits (lowerChars text.data) entries
          = (entries.filter
              (fun e => !(matchedKeywords (lowerChars text.data) e).isEmpty)).map
              (fun e => ⟨e.name, matchedKeywords (lowerChars text.data) e,
                (matchedKeywords (lowerChars text.data) e).length⟩))
    ∧ (∀ entries : List LoreEntry,
        (sortDesc (scanHits (lowerChars text.data) entries)).Perm
          (scanHits (lowerChars text.data) entries))
    ∧ (∀ entries : List LoreEntry,
        (sortDesc (scanHits (lowerChars text.data) entries)).Pairwise
          (fun a b => b.hitCount ≤ a.hitCount))
    ∧ (∀ (entries : List LoreEntry) (c : Nat),
        (sortDesc (scanHits (lowerChars text.data) entries)).filter
            (fun h => h.hitCount = c)
          = (scanHits (lowerChars text.data) entries).filter
              (fun h => h.hitCount = c)) :=
  ⟨rfl,
   fun entries => scanHits_eq (lowerChars text.data) entries,
   fun entries => sortDesc_perm (scanHits (lowerChars text.data) entries),
   fun entries => sortDesc_sorted (scanHits (lowerChars text.data) entries),
   fun entries c => sortDesc_filter_count (scanHits (lowerChars text.data) entries) c⟩

/- ------------------------------------------------------------------ -/
/- §6  Chapter rewriter  (src/ainovel/core/chapter_rewriter.py)        -/
/- ------------------------------------------------------------------ -/

/-- The `Chapter` row fields relevant to rewriting, rollback and context
compression. -/
structure Chapter where
  order : Int
  title : String
  content : String
  summary : Option String
  wordCount : Nat
deriving DecidableEq, Repr

/-- `Chapter.update_word_count`, modelling the `ImportError` fallback
(count of non-whitespace characters; the jieba tokenizer is an external
dependency whose segmentation is not part of the design). -/
def updateWordCount (content : String) : Nat :=
  (content.data.filter (fun c => !c.isWhitespace)).length

/-- One line of the per-chapter rewrite-history jsonl file (timestamp and
scope metadata omitted: they are never read back by `rollback`). -/
structure HistoryRecord where
  historyId : String
  instruction : String
  rewriteMode : String
  originalContent : String
  newContent : String
deriving DecidableEq, Repr

/-- Rewriter state: the chapter row plus its append-only rewrite-history
file. -/
structure RewriteState where
  chapter : Chapter
  history : List HistoryRecord
deriving DecidableEq, Repr

/-- One step of `re.split(r"\n{2,}", text)`: `cur` is the current piece in
reverse, `pending` counts newlines seen but not yet classified; a run of
two or more newlines is a separator, a single newline stays inside the
piece. -/
def splitRunsGo : List Char → List Char → Nat → List (List Char)
  | [], cur, pending =>
      if 2 ≤ pending then [cur.reverse, []]
      else [(List.replicate pending '\n' ++ cur).reverse]
  | c :: cs, cur, pending =>
      if c = '\n' then splitRunsGo cs cur (pending + 1)
      else if 2 ≤ pending then cur.reverse :: splitRunsGo cs [c] 0
      else splitRunsGo cs (c :: (List.replicate pending '\n' ++ cur)) 0

/-- `_split_paragraphs`: split on blank-line runs, strip each piece, keep
the nonempty ones. -/
def splitParagraphs (cs : List Char) : List (List Char) :=
  ((splitRunsGo cs [] 0).map trimChars).filter (fun p => !p.isEmpty)

/-- `target_scope`: `paragraph | chapter` (the source lower-cases and
validates the tag string; other tags are rejected up front). -/
inductive RewriteScope where
  | paragraph
  | chapter
deriving DecidableEq, Repr

/-- `start = range_start or 1` — Python truthiness maps both `None` and
`0` to the default. -/
def rewriteStart : Option Int → Int
  | none => 1
  | some n => if n = 0 then 1 else n

/-- `end = range_end or start`. -/
def rewriteEnd (rangeStart rangeEnd : Option Int) : Int :=
  match rangeEnd with
  | none => rewriteStart rangeStart
  | some n => if n = 0 then rewriteStart rangeStart else n

/-- Common tail of `rewrite`: append the history record
(`_append_rewrite_history` stores `original_content` verbatim), then, when
`save` is set, overwrite `chapter.content` and recompute the word count.
The cached `summary` is never touched. -/
def applySave (st : RewriteState) (instruction rewriteMode : String)
    (newContent : String) (save : Bool) (historyId : String) : RewriteState :=
  if save then
    { chapter := { st.chapter with content := newContent, wordCount := updateWordCount newContent },
      history := st.history ++
        [⟨historyId, instruction, rewriteMode, st.chapter.content, newContent⟩] }
  else
    { st with history := st.history ++
        [⟨historyId, instruction, rewriteMode, st.chapter.content, newContent⟩] }

/-- `ChapterRewriter.rewrite`.  The provider reply is the oracle argument
`llmReply` (prompt rendering is opaque); `_rewrite_text` strips it and
rejects an empty result.  Paragraph scope splits the body on blank-line
runs, validates the 1-based range, replaces the selected slice by the
reply's paragraphs and joins with blank lines; chapter scope replaces the
whole body by the stripped reply.  `history_id` (a wall-clock timestamp in
the source) is a parameter. -/
def rewrite (st : RewriteState) (instruction : String)
    (targetScope : RewriteScope) (rangeStart rangeEnd : Option Int)
    (llmReply : String) (save : Bool) (historyId rewriteMode : String) :
    Except String RewriteState :=
  if st.chapter.content.data.isEmpty then .error ("章节内容为空，无法改写")
  else if (trimChars instruction.data).isEmpty then .error ("instruction 不能为空")
  else
    match targetScope with
    | .chapter =>
        if (trimChars llmReply.data).isEmpty then .error ("改写结果为空")
        else .ok (applySave st instruction rewriteMode
          (String.mk (trimChars llmReply.data)) save historyId)
    | .paragraph =>
        if (splitParagraphs st.chapter.content.data).isEmpty then
          .error ("章节无可改写段落")
        else if rewriteStart rangeStart < 1
            ∨ rewriteEnd rangeStart rangeEnd < rewriteStart rangeStart
            ∨ ((splitParagraphs st.chapter.content.data).length : Int)
                < rewriteEnd rangeStart rangeEnd then
          .error ("段落范围无效")
        else if (trimChars llmReply.data).isEmpty then .error ("改写结果为空")
        else .ok (applySave st instruction rewriteMode
          (String.mk (List.intercalate ['\n', '\n']
            ((splitParagraphs st.chapter.content.data).take
                ((rewriteStart rangeStart).toNat - 1)
              ++ splitParagraphs (trimChars llmReply.data)
              ++ (splitParagraphs st.chapter.content.data).drop
                  (rewriteEnd rangeStart rangeEnd).toNat)))
          save historyId)

/-- Target selection of `rollback`: the named history id (first match of
the for-loop), or the newest entry (`history_records[-1]`) when unnamed. -/
def findTarget (history : List HistoryRecord) :
    Option String → Option HistoryRecord
  | some hid => history.find? (fun r => r.historyId == hid)
  | none => history.getLast?

/-- `ChapterRewriter.rollback`: pick the target history record, reject a
missing or empty `original_content`, and (when `save` is set) write it
back to the chapter body verbatim, recomputing the word count.  Returns
the new state together with `rolled_back_content`. -/
def rollback (st : RewriteState) (historyId : Option String) (save : Bool) :
    Except String (RewriteState × String) :=
  if st.history.isEmpty then .error ("未找到可回滚的改写历史")
  else
    match findTarget st.history historyId with
    | none => .error ("未找到指定 history_id")
    | some target =>
        if target.originalContent.data.isEmpty then
          .error ("历史记录缺少 original_content，无法回滚")
        else if save then
          .ok ({ st with chapter := { st.chapter with content := target.originalContent, wordCount := updateWordCount target.originalContent } },
               target.originalContent)
        else .ok (st, target.originalContent)

/-- Every successful `rewrite` goes through the common
history-append/save tail, with the pre-rewrite body recorded verbatim. -/
theorem rewrite_ok_shape (st : RewriteState) (instruction : String)
    (targetScope : RewriteScope) (rangeStart rangeEnd : Option Int)
    (llmReply : String) (save : Bool) (historyId rewriteMode : String)
    (st' : RewriteState)
    (h : rewrite st instruction targetScope rangeStart rangeEnd llmReply save
      historyId rewriteMode = .ok st') :
    ¬ st.chapter.content.data.isEmpty
    ∧ ∃ newContent,
        st' = applySave st instruction rewriteMode newContent save historyId := by
  unfold rewrite at h
  split at h
  · exact absurd h (by simp)
  · rename_i hcontent
    split at h
    · exact absurd h (by simp)
    · split at h
      · split at h
        · exact absurd h (by simp)
        · simp only [Except.ok.injEq] at h
          exact ⟨hcontent, _, h.symm⟩
      · split at h
        · exact absurd h (by simp)
        · split at h
          · exact absurd h (by simp)
          · split at h
            · exact absurd h (by simp)
            · simp only [Except.ok.injEq] at h
              exact ⟨hcontent, _, h.symm⟩

/-- C4 (amended): a rewrite — saved or not — never touches the cached
chapter summary: after `rewrite` with `save=true` overwrites the body, a
non-null summary of the old body silently remains (there is no
invalidation and no explicit-reuse path in the code). -/
theorem C4_rewrite_preserves_summary (st : RewriteState) (instruction : String)
    (targetScope : RewriteScope) (rangeStart rangeEnd : Option Int)
    (llmReply : String) (save : Bool) (historyId rewriteMode : String)
    (st' : RewriteState)
    (h : rewrite st instruction targetScope rangeStart rangeEnd llmReply save
      historyId rewriteMode = .ok st') :
    st'.chapter.summary = st.chapter.summary := by
  obtain ⟨-, nc, rfl⟩ := rewrite_ok_shape st instruction targetScope rangeStart
    rangeEnd llmReply save historyId rewriteMode st' h
  unfold applySave
  split <;> rfl

/-- C4 counterexample: rewriting paragraph 2 of a chapter holding the
cached summary `旧摘要` with `save=true` overwrites the body but leaves the
summary at its old non-null value — the claim requires it to become null
(no explicit-reuse mechanism exists in the code). -/
theorem C4_counterexample :
    (rewrite ⟨⟨1, ("第一章"), ("第一段\n\n第二段"), some ("旧摘要"), 6⟩, []⟩
        ("改写第二段") .paragraph (some 2) (some 2) ("新的第二段") true
        ("20260101000000000000") ("rewrite")).toOption.map
      (fun st => (st.chapter.content, st.chapter.summary))
      = some (("第一段\n\n新的第二段"), some ("旧摘要"))
    ∧ ("第一段\n\n新的第二段") ≠ ("第一段\n\n第二段") := by
  exact ⟨by decide, by decide⟩

/-- Concrete instance of `C4_rewrite_preserves_summary` at the
counterexample input. -/
theorem C4_rewrite_preserves_summary_witness :
    (⟨⟨1, ("第一章"), ("第一段\n\n新的第二段"), some ("旧摘要"), 8⟩,
      [⟨("20260101000000000000"), ("改写第二段"), ("rewrite"),
        ("第一段\n\n第二段"), ("第一段\n\n新的第二段")⟩]⟩ :
      RewriteState).chapter.summary
      = (⟨⟨1, ("第一章"), ("第一段\n\n第二段"), some ("旧摘要"), 6⟩, []⟩ :
          RewriteState).chapter.summary :=
  C4_rewrite_preserves_summary
    ⟨⟨1, ("第一章"), ("第一段\n\n第二段"), some ("旧摘要"), 6⟩, []⟩
    ("改写第二段") .paragraph (some 2) (some 2) ("新的第二段") true
    ("20260101000000000000") ("rewrite") _ (by rfl)

/-- C5: paragraph-scoped rewrite with `save=true` followed by `rollback`
with no `history_id` and `save=true` restores the chapter body exactly,
character for character: the newest history entry's `original_content` is
a verbatim copy of the pre-rewrite body, and `rollback` writes it back
unmodified. -/
theorem C5_rewrite_rollback_roundtrip (st : RewriteState) (instruction : String)
    (rangeStart rangeEnd : Option Int) (llmReply : String)
    (historyId rewriteMode : String) (st' : RewriteState)
    (h : rewrite st instruction .paragraph rangeStart rangeEnd llmReply true
      historyId rewriteMode = .ok st') :
    ∃ res, rollback st' none true = .ok res
      ∧ res.2 = st.chapter.content
      ∧ res.1.chapter.content = st.chapter.content := by
  obtain ⟨hcontent, nc, rfl⟩ := rewrite_ok_shape st instruction .paragraph
    rangeStart rangeEnd llmReply true historyId rewriteMode st' h
  have happ : applySave st instruction rewriteMode nc true historyId
      = { chapter := { st.chapter with content := nc, wordCount := updateWordCount nc },
          history := st.history ++
            [⟨historyId, instruction, rewriteMode, st.chapter.content, nc⟩] } := by
    simp [applySave]
  rw [happ]
  unfold rollback
  rw [if_neg (by simp)]
  simp only [findTarget, List.getLast?_concat]
  rw [if_neg (by simpa using hcontent)]
  exact ⟨_, rfl, rfl, rfl⟩

/-- Concrete instance of `C5_rewrite_rollback_roundtrip`: the body
`"P1\n\nP2\n\nP3"` has paragraph 2 rewritten to `"P2x"` and saved; rolling
back the newest history entry restores `"P1\n\nP2\n\nP3"` exactly. -/
theorem C5_rewrite_rollback_roundtrip_witness :
    ∃ res, rollback
        (⟨⟨1, ("第一章"), ("P1\n\nP2x\n\nP3"), none, 7⟩,
          [⟨("h1"), ("polish paragraph two"), ("rewrite"),
            ("P1\n\nP2\n\nP3"), ("P1\n\nP2x\n\nP3")⟩]⟩ : RewriteState)
        none true = .ok res
      ∧ res.2 = ("P1\n\nP2\n\nP3")
      ∧ res.1.chapter.content = ("P1\n\nP2\n\nP3") :=
  C5_rewrite_rollback_roundtrip
    ⟨⟨1, ("第一章"), ("P1\n\nP2\n\nP3"), none, 0⟩, []⟩
    ("polish paragraph two") (some 2) (some 2) ("P2x") ("h1") ("rewrite")
    ⟨⟨1, ("第一章"), ("P1\n\nP2x\n\nP3"), none, 7⟩,
      [⟨("h1"), ("polish paragraph two"), ("rewrite"),
        ("P1\n\nP2\n\nP3"), ("P1\n\nP2x\n\nP3")⟩]⟩
    (by rfl)

/- ------------------------------------------------------------------ -/
/- §7  Context compressor  (src/ainovel/core/context_compressor.py)    -/
/- ------------------------------------------------------------------ -/

/-- `CompressionLevel` enum. -/
inductive CompressionLevel where
  | detailed
  | brief
  | minimal
deriving DecidableEq, Repr

/-- `_LEVEL_CONFIG[level]["target_words"]`. -/
def levelTargetWords : CompressionLevel → Nat
  | .detailed => 200
  | .brief => 100
  | .minimal => 50

/-- `_LEVEL_CONFIG[level]["max_tokens"]` (the per-tier provider output
cap; recorded for completeness). -/
def levelMaxTokens : CompressionLevel → Nat
  | .detailed => 300
  | .brief => 150
  | .minimal => 80

/-- `_get_compression_level(distance)` with `_NEAR_THRESHOLD = 3`,
`_MID_THRESHOLD = 10`. -/
def getCompressionLevel (distance : Int) : CompressionLevel :=
  if distance ≤ 3 then .detailed
  else if distance ≤ 10 then .brief
  else .minimal

/-- `_compress_single(content, level)`: bodies no longer than the tier
target are returned verbatim without a provider call; otherwise the
provider is called once (the oracle `llm` returns `none` on a provider
exception, in which case the text degrades to a hard truncation with an
ellipsis).  Returns the text and the number of provider calls made. -/
def compressSingle (llm : String → CompressionLevel → Option String)
    (content : String) (level : CompressionLevel) : String × Nat :=
  if content.data.length ≤ levelTargetWords level then (content, 0)
  else
    match llm content level with
    | some reply => (String.mk (trimChars reply.data), 1)
    | none => (String.mk (content.data.take (levelTargetWords level) ++ ("…").data), 1)

/-- `_get_or_compress(chapter, level)`: a truthy cached summary is used
directly when its length is at most 1.5× the tier target, truncated to
the target otherwise; without a cache the body is compressed. -/
def getOrCompress (llm : String → CompressionLevel → Option String)
    (ch : Chapter) (level : CompressionLevel) : String × Nat :=
  match ch.summary with
  | some cached =>
      if cached.data.isEmpty then compressSingle llm ch.content level
      else if 2 * cached.data.length ≤ 3 * levelTargetWords level then (cached, 0)
      else (String.mk (cached.data.take (levelTargetWords level) ++ ("…").data), 0)
  | none => compressSingle llm ch.content level

/-- `f"第{chapter.order}章 {chapter.title}：{text}"`. -/
def formatPart (order : Int) (title text : String) : String :=
  ("第" ++ toString order ++ "章 ") ++ title ++ ("：" ++ text)

/-- The budget loop of `_compress_chapters`: stop when the remaining
character budget is spent; a chapter whose tier target no longer fits is
downgraded to minimal when at least 50 characters remain, otherwise the
loop breaks; each emitted text is truncated to the remaining budget (with
an ellipsis) and its length — ellipsis included — is charged against the
budget.  Returns `(order, formatted part)` pairs in visit order plus the
number of provider calls. -/
def compressLoop (llm : String → CompressionLevel → Option String) :
    List (Chapter × Int) → Int → List (Int × String) × Nat
  | [], _ => ([], 0)
  | (ch, dist) :: rest, remaining =>
      if remaining ≤ 0 then ([], 0)
      else if remaining < (levelTargetWords (getCompressionLevel dist) : Int)
          ∧ remaining < 50 then ([], 0)
      else
        let lvl := if remaining < (levelTargetWords (getCompressionLevel dist) : Int)
                   then CompressionLevel.minimal else getCompressionLevel dist
        let tc := getOrCompress llm ch lvl
        let text := if (tc.1.data.length : Int) > remaining
                    then String.mk (tc.1.data.take remaining.toNat ++ ("…").data)
                    else tc.1
        let restRes := compressLoop llm rest (remaining - text.data.length)
        ((ch.order, formatPart ch.order ch.title text) :: restRes.1,
         tc.2 + restRes.2)

/-- `[result_map[order] for order in sorted(result_map)]`: ascending
chapter order (orders are distinct, coming from a `range`). -/
def sortEntries (entries : List (Int × String)) : List (Int × String) :=
  List.insertionSort (fun a b => a.1 ≤ b.1) entries

/-- `_compress_chapters(chapters_with_distance, token_budget)`: the
character budget is `int(token_budget * 1.5)` (exact truncation towards
zero, i.e. `(3 * token_budget).tdiv 2`). -/
def compress_chapters (llm : String → CompressionLevel → Option String)
    (chaptersWithDistance : List (Chapter × Int)) (tokenBudget : Int) :
    List String × Nat :=
  ((sortEntries (compressLoop llm chaptersWithDistance
      (Int.tdiv (3 * tokenBudget) 2)).1).map (fun e => e.2),
   (compressLoop llm chaptersWithDistance (Int.tdiv (3 * tokenBudget) 2)).2)

/-- Python `range(start, stop)` over integers. -/
def intRange (start stop : Int) : List Int :=
  (List.range (stop - start).toNat).map (fun i => start + i)

/-- The chapter-gathering loop of `build_previous_context`: ordinals
`range(max(1, current - window), current)`, resolved through
`get_by_order`, keeping chapters with a non-empty body. -/
def gatherChapters (volume : List Chapter) (currentOrder windowSize : Int) :
    List Chapter :=
  (intRange (max 1 (currentOrder - windowSize)) currentOrder).filterMap (fun o =>
    match volume.find? (fun ch => ch.order == o) with
    | some ch => if ch.content.data.isEmpty then none else some ch
    | none => none)

/-- `"\n\n".join(parts)`. -/
def joinParts : List String → String
  | [] => ""
  | [p] => p
  | p :: rest => p ++ ("\n\n") ++ joinParts rest

/-- `build_previous_context(volume_id, current_order, window_size,
token_budget)`: ordinal 1 or no prior chapter with a body yields the
fixed no-prior-context sentinel; otherwise the gathered chapters are
compressed under the budget and joined with blank lines.  Returns the
recap text and the number of provider calls. -/
def build_previous_context (llm : String → CompressionLevel → Option String)
    (volume : List Chapter) (currentOrder windowSize tokenBudget : Int) :
    String × Nat :=
  if currentOrder ≤ 1 then (("本章为开篇，无前情"), 0)
  else if (gatherChapters volume currentOrder windowSize).isEmpty then
    (("本章为开篇，无前情"), 0)
  else
    ((joinParts (compress_chapters llm
        ((gatherChapters volume currentOrder windowSize).map
          (fun ch => (ch, currentOrder - ch.order))) tokenBudget).1),
     (compress_chapters llm
        ((gatherChapters volume currentOrder windowSize).map
          (fun ch => (ch, currentOrder - ch.order))) tokenBudget).2)

theorem fifty_le_levelTargetWords (l : CompressionLevel) :
    50 ≤ levelTargetWords l := by
  cases l <;> simp [levelTargetWords]

/-- A remaining budget below the minimal-tier target stops the loop at
once: nothing is emitted and no provider call is made. -/
theorem compressLoop_small (llm : String → CompressionLevel → Option String)
    (c : Chapter × Int) (rest : List (Chapter × Int)) (remaining : Int)
    (h : remaining < 50) :
    compressLoop llm (c :: rest) remaining = ([], 0) := by
  obtain ⟨ch, dist⟩ := c
  unfold compressLoop
  by_cases h0 : remaining ≤ 0
  · rw [if_pos h0]
  · rw [if_neg h0, if_pos ?_]
    have := fifty_le_levelTargetWords (getCompressionLevel dist)
    constructor <;> omega

/-- C10: when the total character budget `int(token_budget * 1.5)` is
below the minimal-tier target of 50 characters, `build_previous_context`
for an ordinal greater than 1 with at least one prior non-empty chapter in
the window returns the empty string (not the sentinel) and performs no
provider call. -/
theorem C10_build_previous_context_empty
    (llm : String → CompressionLevel → Option String) (volume : List Chapter)
    (currentOrder windowSize tokenBudget : Int)
    (h1 : 1 < currentOrder)
    (h2 : gatherChapters volume currentOrder windowSize ≠ [])
    (h3 : Int.tdiv (3 * tokenBudget) 2 < 50) :
    build_previous_context llm volume currentOrder windowSize tokenBudget
      = (("") , 0) := by
  rcases hg : gatherChapters volume currentOrder windowSize with _ | ⟨c0, cs⟩
  · exact absurd hg h2
  · unfold build_previous_context
    rw [if_neg (by omega), hg, if_neg (by simp)]
    simp only [List.map_cons, compress_chapters,
      compressLoop_small llm _ _ _ h3]
    rfl

/-- Concrete instance of `C10_build_previous_context_empty`: one prior
chapter with a body, ordinal 2, window 10, token budget 30 (character
budget 45 < 50) yields the empty recap with zero provider calls. -/
theorem C10_build_previous_context_empty_witness :
    build_previous_context (fun _ _ => none)
      [⟨1, ("第一章"), ("正文"), none, 0⟩] 2 10 30 = (("") , 0) :=
  C10_build_previous_context_empty (fun _ _ => none)
    [⟨1, ("第一章"), ("正文"), none, 0⟩] 2 10 30
    (by decide) (by decide) (by decide)

/- ------------------------------------------------------------------ -/
/- §8  OpenAI client retry  (src/ainovel/llm/openai_client.py)         -/
/- ------------------------------------------------------------------ -/

/-- The payload of a successful provider call (`response.choices[0]` and
`response.usage`; cost derivation is a separate concern). -/
structure GenResult where
  content : String
  inputTokens : Nat
  outputTokens : Nat
deriving DecidableEq, Repr

/-- The raw outcome of one underlying API call attempt: a response, or a
raised exception with its `str(e)` text. -/
inductive ProviderOutcome where
  | success (result : GenResult)
  | failure (message : String)
deriving DecidableEq, Repr

/-- The typed error hierarchy of `src/ainovel/llm/exceptions.py` as used
by the OpenAI client. -/
inductive LLMError where
  | rateLimit (message : String)
  | apiKey (message : String)
  | tokenLimit (message : String)
  | llmError (message : String)
deriving DecidableEq, Repr

/-- Which errors the tenacity decorator retries
(`retry_if_exception_type(RateLimitError)`). -/
def LLMError.isRateLimit : LLMError → Bool
  | .rateLimit _ => true
  | _ => false

/-- The `except Exception` classifier at the bottom of `generate`:
rate-limit markers first, then auth, then token limit, else the
catch-all `LLMError`. -/
def classifyError (msg : String) : LLMError :=
  if containsChars (("rate_limit").data) (lowerChars msg.data)
      || containsChars (("429").data) msg.data then
    .rateLimit (("OpenAI限流: ") ++ msg)
  else if containsChars (("invalid_api_key").data) (lowerChars msg.data)
      || containsChars (("401").data) msg.data then
    .apiKey (("OpenAI API密钥无效: ") ++ msg)
  else if containsChars (("maximum context length").data) (lowerChars msg.data) then
    .tokenLimit (("Token超限: ") ++ msg)
  else
    .llmError (("OpenAI API调用失败: ") ++ msg)

/-- One attempt of the undecorated `generate` body: a successful call
returns the result; an exception is classified and raised as a typed
error.  `attempts i` is the oracle outcome of the i-th underlying call. -/
def generateAttempt (attempts : Nat → ProviderOutcome) (i : Nat) :
    Except LLMError GenResult :=
  match attempts i with
  | .success r => .ok r
  | .failure msg => .error (classifyError msg)

/-- Whether an attempt result is a raised rate-limit error. -/
def errIsRateLimit (r : Except LLMError GenResult) : Bool :=
  match r with
  | .error e => e.isRateLimit
  | .ok _ => false

/-- tenacity `wait_exponential(multiplier=1, min=2, max=10)` after the
given (1-based) attempt number: `max(min, min(multiplier * 2^n, max))`. -/
def waitExponential (attemptNumber : Nat) : Nat :=
  max 2 (min (2 ^ attemptNumber) 10)

/-- The tenacity retry loop: `k` is the current 1-based attempt number,
the second argument the number of retries still allowed
(`stop_after_attempt(3)` grants two).  Only a `RateLimitError` is retried;
with `reraise=True` the final error is re-raised as-is.  Returns the
result, the number of attempts made and the backoff waits slept between
attempts. -/
def retryGo (attempts : Nat → ProviderOutcome) :
    Nat → Nat → Except LLMError GenResult × Nat × List Nat
  | k, 0 => (generateAttempt attempts k, k, [])
  | k, n + 1 =>
      match generateAttempt attempts k with
      | .ok r => (.ok r, k, [])
      | .error e =>
          if e.isRateLimit then
            ((retryGo attempts (k + 1) n).1,
             (retryGo attempts (k + 1) n).2.1,
             waitExponential k :: (retryGo attempts (k + 1) n).2.2)
          else (.error e, k, [])

/-- The decorated `generate`: at most three attempts in total. -/
def generate (attempts : Nat → ProviderOutcome) :
    Except LLMError GenResult × Nat × List Nat :=
  retryGo attempts 1 2

theorem retryGo_spec (attempts : Nat → ProviderOutcome) (n : Nat) :
    ∀ k,
      (k ≤ (retryGo attempts k n).2.1 ∧ (retryGo attempts k n).2.1 ≤ k + n)
      ∧ (∀ i, k ≤ i → i < (retryGo attempts k n).2.1 →
          errIsRateLimit (generateAttempt attempts i) = true)
      ∧ (retryGo attempts k n).1
          = generateAttempt attempts (retryGo attempts k n).2.1
      ∧ (errIsRateLimit (retryGo attempts k n).1 = true →
          (retryGo attempts k n).2.1 = k + n)
      ∧ (retryGo attempts k n).2.2
          = (List.range ((retryGo attempts k n).2.1 - k)).map
              (fun j => waitExponential (k + j)) := by
  induction n with
  | zero =>
      intro k
      have hred : retryGo attempts k 0 = (generateAttempt attempts k, k, []) := rfl
      rw [hred]
      dsimp only
      exact ⟨⟨le_refl k, by omega⟩, fun i hki hik => by omega, rfl,
        fun _ => by omega, by simp⟩
  | succ n ih =>
      intro k
      obtain ⟨⟨hs1, hs2⟩, hsRL, hsRes, hsStop, hsWaits⟩ := ih (k + 1)
      rcases hk : generateAttempt attempts k with e | r
      · by_cases hrl : e.isRateLimit
        · have hred : retryGo attempts k (n + 1)
              = ((retryGo attempts (k + 1) n).1,
                 (retryGo attempts (k + 1) n).2.1,
                 waitExponential k :: (retryGo attempts (k + 1) n).2.2) := by
            simp [retryGo, hk, hrl]
          rw [hred]
          dsimp only
          refine ⟨⟨by omega, by omega⟩, ?_, hsRes, fun h => ?_, ?_⟩
          · intro i hki hik
            rcases Nat.eq_or_lt_of_le hki with hEq | hlt
            · rw [← hEq]
              rw [hk]
              simpa [errIsRateLimit] using hrl
            · exact hsRL i hlt hik
          · have := hsStop h
            omega
          · have hlen : (retryGo attempts (k + 1) n).2.1 - k
                = ((retryGo attempts (k + 1) n).2.1 - (k + 1)) + 1 := by omega
            rw [hsWaits, hlen, List.range_succ_eq_map]
            simp only [List.map_cons, List.map_map, Nat.add_zero]
            refine congrArg (List.cons (waitExponential k)) ?_
            refine List.map_congr_left fun j hj => ?_
            simp only [Function.comp_apply]
            exact congrArg waitExponential (by omega)
        · have hred : retryGo attempts k (n + 1) = (.error e, k, []) := by
            simp [retryGo, hk, hrl]
          rw [hred]
          dsimp only
          refine ⟨⟨le_refl k, by omega⟩, fun i hki hik => by omega, by rw [hk],
            fun h => ?_, by simp⟩
          exact absurd (by simpa [errIsRateLimit] using h) hrl
      · have hred : retryGo attempts k (n + 1) = (.ok r, k, []) := by
          simp [retryGo, hk]
        rw [hred]
        dsimp only
        refine ⟨⟨le_refl k, by omega⟩, fun i hki hik => by omega, by rw [hk],
          fun h => by simp [errIsRateLimit] at h, by simp⟩

/-- C6: retry semantics of `generate`.  Between one and three attempts
are made; every attempt before the last raised a rate-limit error (so
authentication, token-limit and other errors are never retried); the
returned value is exactly the outcome of the last attempt (success
returned, error re-raised unchanged); a surfaced rate-limit error means
all three attempts were used; and the waits slept between attempts follow
`wait_exponential(multiplier=1, min=2, max=10)`, each between 2 and 10
seconds. -/
theorem C6_generate_retry_spec (attempts : Nat → ProviderOutcome) :
    (1 ≤ (generate attempts).2.1 ∧ (generate attempts).2.1 ≤ 3)
    ∧ (∀ i, 1 ≤ i → i < (generate attempts).2.1 →
        errIsRateLimit (generateAttempt attempts i) = true)
    ∧ (generate attempts).1 = generateAttempt attempts (generate attempts).2.1
    ∧ (errIsRateLimit (generate attempts).1 = true → (generate attempts).2.1 = 3)
    ∧ (generate attempts).2.2
        = (List.range ((generate attempts).2.1 - 1)).map
            (fun j => waitExponential (1 + j))
    ∧ (∀ k, waitExponential k = max 2 (min (2 ^ k) 10)
        ∧ 2 ≤ waitExponential k ∧ waitExponential k ≤ 10) := by
  have h := retryGo_spec attempts 2 1
  refine ⟨⟨h.1.1, h.1.2⟩, h.2.1, h.2.2.1, h.2.2.2.1, h.2.2.2.2,
    fun k => ⟨rfl, ?_, ?_⟩⟩ <;> unfold waitExponential <;> omega

/-- Concrete instance of `C6_generate_retry_spec`: three rate-limited
attempts in a row exhaust the retry budget — three attempts are made, the
rate-limit error is re-raised, and the two backoff waits are 2 and 4
seconds. -/
theorem C6_generate_retry_spec_witness :
    (generate (fun i => if i ≤ 1 then .failure ("429 Too Many Requests")
        else if i = 2 then .failure ("rate_limit exceeded")
        else .failure ("429 again"))).2.1 = 3
    ∧ errIsRateLimit (generate (fun i => if i ≤ 1 then .failure ("429 Too Many Requests")
        else if i = 2 then .failure ("rate_limit exceeded")
        else .failure ("429 again"))).1 = true
    ∧ (generate (fun i => if i ≤ 1 then .failure ("429 Too Many Requests")
        else if i = 2 then .failure ("rate_limit exceeded")
        else .failure ("429 again"))).2.2 = [2, 4] :=
  ⟨(C6_generate_retry_spec (fun i => if i ≤ 1 then .failure ("429 Too Many Requests")
        else if i = 2 then .failure ("rate_limit exceeded")
        else .failure ("429 again"))).2.2.2.1 (by decide),
   by decide, by decide⟩

/- ------------------------------------------------------------------ -/
/- §9  Pipeline batch execution (src/ainovel/workflow/pipeline_runner.py) -/
/- ------------------------------------------------------------------ -/

/-- `TaskResult` (stats omitted; the error text of a real exception is
irrelevant to the claim, only the distinguishing skip marker is kept). -/
structure TaskResult where
  chapterId : Nat
  chapterTitle : String
  step : Nat
  success : Bool
  error : Option String
deriving DecidableEq, Repr

/-- The aggregate counters and result list of `PipelineResult`, plus
`dispatched5`, instrumentation recording the chapters whose step-5 task
was actually invoked (serial) or submitted to the pool (parallel). -/
structure BatchState where
  succeeded : Nat
  failed : Nat
  skipped : Nat
  taskResults : List TaskResult
  dispatched5 : List Nat
deriving DecidableEq, Repr

def initBatch : BatchState := ⟨0, 0, 0, [], []⟩

/-- The "skipped because step 4 failed" entry recorded for step 5. -/
def skip5Result (cid : Nat) (title : String) : TaskResult :=
  ⟨cid, title, 5, false, some ("步骤4失败，跳过步骤5")⟩

/-- Book-keeping shared by the serial loop and the parallel `_collect`:
append the task result and bump `succeeded` or `failed`. -/
def recordTask (st : BatchState) (t : TaskResult) : BatchState :=
  if t.success then
    { st with taskResults := st.taskResults ++ [t], succeeded := st.succeeded + 1 }
  else
    { st with taskResults := st.taskResults ++ [t], failed := st.failed + 1 }

/-- Recording of a skip entry (`result.skipped += 1`). -/
def recordSkip (st : BatchState) (t : TaskResult) : BatchState :=
  { st with taskResults := st.taskResults ++ [t], skipped := st.skipped + 1 }

/-- The step-5 part of one serial loop iteration
(`if from_step <= 5 <= to_step`): the task is dispatched and its result
recorded.  The outcome of a chapter's step-N task is the oracle `s4`/`s5`
(covering both real generation and the idempotent skip, which counts as a
success). -/
def step5Serial (fromStep toStep : Nat) (s5 : Nat → Bool) (st : BatchState)
    (c : Nat × String) : BatchState :=
  if fromStep ≤ 5 ∧ 5 ≤ toStep then
    recordTask { st with dispatched5 := st.dispatched5 ++ [c.1] }
      ⟨c.1, c.2, 5, s5 c.1, none⟩
  else st

/-- One iteration of `_run_batch_serial`: run step 4 when requested; on
its failure record the explicit skip entry for step 5 (when step 5 is in
range) and `continue`; otherwise fall through to step 5. -/
def runChapterSerial (fromStep toStep : Nat) (s4 s5 : Nat → Bool)
    (st : BatchState) (c : Nat × String) : BatchState :=
  if fromStep ≤ 4 ∧ 4 ≤ toStep then
    if s4 c.1 then
      step5Serial fromStep toStep s5 (recordTask st ⟨c.1, c.2, 4, true, none⟩) c
    else if 5 ≤ toStep then
      recordSkip (recordTask st ⟨c.1, c.2, 4, false, none⟩) (skip5Result c.1 c.2)
    else recordTask st ⟨c.1, c.2, 4, false, none⟩
  else step5Serial fromStep toStep s5 st c

/-- `_run_batch_serial`: the single-threaded loop over the selected
chapters. -/
def runBatchSerial (chapters : List (Nat × String)) (fromStep toStep : Nat)
    (s4 s5 : Nat → Bool) : BatchState :=
  chapters.foldl (runChapterSerial fromStep toStep s4 s5) initBatch

/-- Membership test of the parallel mode's `step4_failed` set: phase 1 ran
and the chapter's step-4 task failed (task outcomes are a function of the
chapter id, and phase 1 processes every selected chapter). -/
def step4FailedP (fromStep toStep : Nat) (s4 : Nat → Bool) (cid : Nat) : Bool :=
  decide (fromStep ≤ 4 ∧ 4 ≤ toStep) && !(s4 cid)

/-- The phase-2 submission loop body: a chapter in `step4_failed` gets the
skip entry recorded without dispatching; any other chapter's step-5 task
is submitted to the pool. -/
def phase2Submit (fromStep toStep : Nat) (s4 : Nat → Bool) (st : BatchState)
    (c : Nat × String) : BatchState :=
  if step4FailedP fromStep toStep s4 c.1 then recordSkip st (skip5Result c.1 c.2)
  else { st with dispatched5 := st.dispatched5 ++ [c.1] }

/-- `_run_batch_parallel`: phase 1 collects every step-4 result in pool
completion order `order4`; phase 2 records skips in submission order, then
collects the dispatched step-5 results in completion order `order5`.  The
completion orders are parameters constrained (in the theorem) to be
permutations of the submitted task lists. -/
def runBatchParallel (chapters : List (Nat × String)) (fromStep toStep : Nat)
    (s4 s5 : Nat → Bool) (order4 order5 : List (Nat × String)) : BatchState :=
  if fromStep ≤ 5 ∧ 5 ≤ toStep then
    (order5.map (fun c => (⟨c.1, c.2, 5, s5 c.1, none⟩ : TaskResult))).foldl
      recordTask
      (chapters.foldl (phase2Submit fromStep toStep s4)
        (if fromStep ≤ 4 ∧ 4 ≤ toStep then
          (order4.map (fun c => (⟨c.1, c.2, 4, s4 c.1, none⟩ : TaskResult))).foldl
            recordTask initBatch
          else initBatch))
  else
    if fromStep ≤ 4 ∧ 4 ≤ toStep then
      (order4.map (fun c => (⟨c.1, c.2, 4, s4 c.1, none⟩ : TaskResult))).foldl
        recordTask initBatch
    else initBatch

/-- Whether the serial loop runs step 5 for a chapter: step 5 is in range
and step 4 did not run and fail. -/
def run5b (fromStep toStep : Nat) (s4 : Nat → Bool) (c : Nat × String) : Bool :=
  decide (fromStep ≤ 5 ∧ 5 ≤ toStep)
    && (!decide (fromStep ≤ 4 ∧ 4 ≤ toStep) || s4 c.1)

/-- The task results one serial iteration appends for a chapter. -/
def serialChapterLog (fromStep toStep : Nat) (s4 s5 : Nat → Bool)
    (c : Nat × String) : List TaskResult :=
  if fromStep ≤ 4 ∧ 4 ≤ toStep then
    if s4 c.1 then
      ⟨c.1, c.2, 4, true, none⟩ ::
        (if fromStep ≤ 5 ∧ 5 ≤ toStep then [⟨c.1, c.2, 5, s5 c.1, none⟩] else [])
    else if 5 ≤ toStep then [⟨c.1, c.2, 4, false, none⟩, skip5Result c.1 c.2]
    else [⟨c.1, c.2, 4, false, none⟩]
  else if fromStep ≤ 5 ∧ 5 ≤ toStep then [⟨c.1, c.2, 5, s5 c.1, none⟩] else []

theorem runChapterSerial_eq (fromStep toStep : Nat) (s4 s5 : Nat → Bool)
    (st : BatchState) (c : Nat × String) :
    runChapterSerial fromStep toStep s4 s5 st c =
      { succeeded := st.succeeded
          + (if decide (fromStep ≤ 4 ∧ 4 ≤ toStep) && s4 c.1 then 1 else 0)
          + (if run5b fromStep toStep s4 c && s5 c.1 then 1 else 0),
        failed := st.failed
          + (if decide (fromStep ≤ 4 ∧ 4 ≤ toStep) && !s4 c.1 then 1 else 0)
          + (if run5b fromStep toStep s4 c && !s5 c.1 then 1 else 0),
        skipped := st.skipped
          + (if decide (fromStep ≤ 4 ∧ 4 ≤ toStep) && !s4 c.1
                && decide (5 ≤ toStep) then 1 else 0),
        taskResults := st.taskResults ++ serialChapterLog fromStep toStep s4 s5 c,
        dispatched5 := st.dispatched5
          ++ (if run5b fromStep toStep s4 c then [c.1] else []) } := by
  by_cases hf4 : fromStep ≤ 4 <;>
    by_cases ht4 : 4 ≤ toStep <;>
    by_cases hf5 : fromStep ≤ 5 <;>
    by_cases ht5 : 5 ≤ toStep <;>
    rcases hs4 : s4 c.1 with _ | _ <;>
    rcases hs5 : s5 c.1 with _ | _ <;>
    simp [runChapterSerial, step5Serial, recordTask, recordSkip,
      serialChapterLog, run5b, skip5Result, hf4, ht4, hf5, ht5, hs4, hs5]

/-- Concatenation of the serial per-chapter logs. -/
def logsOf (fromStep toStep : Nat) (s4 s5 : Nat → Bool) :
    List (Nat × String) → List TaskResult
  | [] => []
  | c :: cs => serialChapterLog fromStep toStep s4 s5 c
      ++ logsOf fromStep toStep s4 s5 cs

theorem serial_fold_spec (fromStep toStep : Nat) (s4 s5 : Nat → Bool)
    (chapters : List (Nat × String)) : ∀ init : BatchState,
    chapters.foldl (runChapterSerial fromStep toStep s4 s5) init =
      { succeeded := init.succeeded
          + chapters.countP (fun c => decide (fromStep ≤ 4 ∧ 4 ≤ toStep) && s4 c.1)
          + chapters.countP (fun c => run5b fromStep toStep s4 c && s5 c.1),
        failed := init.failed
          + chapters.countP (fun c => decide (fromStep ≤ 4 ∧ 4 ≤ toStep) && !s4 c.1)
          + chapters.countP (fun c => run5b fromStep toStep s4 c && !s5 c.1),
        skipped := init.skipped
          + chapters.countP (fun c => decide (fromStep ≤ 4 ∧ 4 ≤ toStep)
              && !s4 c.1 && decide (5 ≤ toStep)),
        taskResults := init.taskResults
          ++ logsOf fromStep toStep s4 s5 chapters,
        dispatched5 := init.dispatched5
          ++ (chapters.filter (run5b fromStep toStep s4)).map (fun c => c.1) } := by
  induction chapters with
  | nil => intro init; simp [logsOf]
  | cons c cs ih =>
      intro init
      rw [List.foldl_cons, runChapterSerial_eq, ih]
      simp only [BatchState.mk.injEq, List.countP_cons, logsOf, List.filter_cons,
        List.append_assoc]
      refine ⟨by ring, by ring, by ring, by simp, ?_⟩
      by_cases hr : run5b fromStep toStep s4 c <;> simp [hr]

theorem collect_fold_spec (results : List TaskResult) : ∀ st : BatchState,
    results.foldl recordTask st =
      { succeeded := st.succeeded + results.countP (fun t => t.success),
        failed := st.failed + results.countP (fun t => !t.success),
        skipped := st.skipped,
        taskResults := st.taskResults ++ results,
        dispatched5 := st.dispatched5 } := by
  induction results with
  | nil => intro st; simp
  | cons t ts ih =>
      intro st
      rw [List.foldl_cons, ih]
      rcases hts : t.success with _ | _ <;>
        simp [recordTask, hts, List.countP_cons, List.append_assoc] <;> omega

theorem submit_fold_spec (fromStep toStep : Nat) (s4 : Nat → Bool)
    (chapters : List (Nat × String)) : ∀ st : BatchState,
    chapters.foldl (phase2Submit fromStep toStep s4) st =
      { succeeded := st.succeeded,
        failed := st.failed,
        skipped := st.skipped
          + chapters.countP (fun c => step4FailedP fromStep toStep s4 c.1),
        taskResults := st.taskResults
          ++ (chapters.filter (fun c => step4FailedP fromStep toStep s4 c.1)).map
              (fun c => skip5Result c.1 c.2),
        dispatched5 := st.dispatched5
          ++ (chapters.filter (fun c => !step4FailedP fromStep toStep s4 c.1)).map
              (fun c => c.1) } := by
  induction chapters with
  | nil => intro st; simp
  | cons c cs ih =>
      intro st
      rw [List.foldl_cons, ih]
      by_cases hc : step4FailedP fromStep toStep s4 c.1 <;>
        (simp [phase2Submit, recordSkip, hc, List.countP_cons, List.filter_cons,
          List.append_assoc]
         try omega)

theorem runBatchSerial_eq (chapters : List (Nat × String))
    (fromStep toStep : Nat) (s4 s5 : Nat → Bool) :
    runBatchSerial chapters fromStep toStep s4 s5 =
      { succeeded := chapters.countP
            (fun c => decide (fromStep ≤ 4 ∧ 4 ≤ toStep) && s4 c.1)
          + chapters.countP (fun c => run5b fromStep toStep s4 c && s5 c.1),
        failed := chapters.countP
            (fun c => decide (fromStep ≤ 4 ∧ 4 ≤ toStep) && !s4 c.1)
          + chapters.countP (fun c => run5b fromStep toStep s4 c && !s5 c.1),
        skipped := chapters.countP
            (fun c => decide (fromStep ≤ 4 ∧ 4 ≤ toStep) && !s4 c.1
              && decide (5 ≤ toStep)),
        taskResults := logsOf fromStep toStep s4 s5 chapters,
        dispatched5 := (chapters.filter (run5b fromStep toStep s4)).map
          (fun c => c.1) } := by
  rw [runBatchSerial, serial_fold_spec]
  simp [initBatch]

theorem mem_logsOf (fromStep toStep : Nat) (s4 s5 : Nat → Bool)
    (chapters : List (Nat × String)) (c : Nat × String) (hc : c ∈ chapters)
    (x : TaskResult) (hx : x ∈ serialChapterLog fromStep toStep s4 s5 c) :
    x ∈ logsOf fromStep toStep s4 s5 chapters := by
  induction chapters with
  | nil => simp at hc
  | cons d ds ih =>
      rcases List.mem_cons.mp hc with hEq | hmem
      · exact List.mem_append.mpr (Or.inl (hEq ▸ hx))
      · exact List.mem_append.mpr (Or.inr (ih hmem))

theorem collect_map_fold_spec (f : (Nat × String) → TaskResult)
    (ok : (Nat × String) → Bool) (hok : ∀ c, (f c).success = ok c)
    (l : List (Nat × String)) (st : BatchState) :
    (l.map f).foldl recordTask st =
      { succeeded := st.succeeded + l.countP ok,
        failed := st.failed + l.countP (fun c => !ok c),
        skipped := st.skipped,
        taskResults := st.taskResults ++ l.map f,
        dispatched5 := st.dispatched5 } := by
  rw [collect_fold_spec]
  have h1 : (l.map f).countP (fun t => t.success) = l.countP ok := by
    rw [List.countP_map]
    exact List.countP_congr fun x hx => by simp [Function.comp, hok]
  have h2 : (l.map f).countP (fun t => !t.success) = l.countP (fun c => !ok c) := by
    rw [List.countP_map]
    exact List.countP_congr fun x hx => by simp [Function.comp, hok]
  rw [h1, h2]

/-- C3: for every fixed chapter selection and success/failure assignment
to the per-chapter step-4/step-5 tasks, the two-phase parallel execution
— under any pool completion orders (permutations of the submitted task
lists) — produces the same `succeeded`, `failed` and `skipped` counters as
the single-threaded serial loop (`total` is set to the selection length
before either mode runs); and in both modes a chapter whose step-4 task
failed gets a step-5 result recorded with the "skipped because step 4
failed" marker while its step-5 task is never dispatched. -/
theorem C3_parallel_matches_serial (chapters : List (Nat × String))
    (fromStep toStep : Nat) (s4 s5 : Nat → Bool)
    (order4 order5 : List (Nat × String))
    (h4 : order4.Perm chapters)
    (h5 : order5.Perm (chapters.filter
      (fun c => !step4FailedP fromStep toStep s4 c.1))) :
    ((runBatchParallel chapters fromStep toStep s4 s5 order4 order5).succeeded
        = (runBatchSerial chapters fromStep toStep s4 s5).succeeded
      ∧ (runBatchParallel chapters fromStep toStep s4 s5 order4 order5).failed
        = (runBatchSerial chapters fromStep toStep s4 s5).failed
      ∧ (runBatchParallel chapters fromStep toStep s4 s5 order4 order5).skipped
        = (runBatchSerial chapters fromStep toStep s4 s5).skipped)
    ∧ (∀ c ∈ chapters, fromStep ≤ 4 → 5 ≤ toStep → s4 c.1 = false →
        skip5Result c.1 c.2
            ∈ (runBatchSerial chapters fromStep toStep s4 s5).taskResults
        ∧ skip5Result c.1 c.2
            ∈ (runBatchParallel chapters fromStep toStep s4 s5 order4 order5).taskResults
        ∧ c.1 ∉ (runBatchSerial chapters fromStep toStep s4 s5).dispatched5
        ∧ c.1 ∉ (runBatchParallel chapters fromStep toStep s4 s5 order4 order5).dispatched5) := by
  have hS := runBatchSerial_eq chapters fromStep toStep s4 s5
  have hc4s : order4.countP (fun c => s4 c.1)
      = chapters.countP (fun c => s4 c.1) := h4.countP_eq _
  have hc4f : order4.countP (fun c => !s4 c.1)
      = chapters.countP (fun c => !s4 c.1) := h4.countP_eq _
  by_cases hP5 : fromStep ≤ 5 ∧ 5 ≤ toStep
  · -- step 5 is in range: both phases of the parallel run execute
    have hc5s : order5.countP (fun c => s5 c.1)
        = chapters.countP (fun c => run5b fromStep toStep s4 c && s5 c.1) := by
      rw [h5.countP_eq _, List.countP_filter]
      refine List.countP_congr fun x hx => ?_
      cases hd4 : decide (fromStep ≤ 4 ∧ 4 ≤ toStep) <;>
        cases hs : s4 x.1 <;>
        simp [step4FailedP, run5b, hd4, hs, hP5]
    have hc5f : order5.countP (fun c => !s5 c.1)
        = chapters.countP (fun c => run5b fromStep toStep s4 c && !s5 c.1) := by
      rw [h5.countP_eq _, List.countP_filter]
      refine List.countP_congr fun x hx => ?_
      cases hd4 : decide (fromStep ≤ 4 ∧ 4 ≤ toStep) <;>
        cases hs : s4 x.1 <;>
        simp [step4FailedP, run5b, hd4, hs, hP5]
    have hPar : runBatchParallel chapters fromStep toStep s4 s5 order4 order5 =
      { succeeded := chapters.countP
            (fun c => decide (fromStep ≤ 4 ∧ 4 ≤ toStep) && s4 c.1)
          + order5.countP (fun c => s5 c.1),
        failed := chapters.countP
            (fun c => decide (fromStep ≤ 4 ∧ 4 ≤ toStep) && !s4 c.1)
          + order5.countP (fun c => !s5 c.1),
        skipped := chapters.countP
          (fun c => step4FailedP fromStep toStep s4 c.1),
        taskResults := (if fromStep ≤ 4 ∧ 4 ≤ toStep
            then order4.map (fun c => (⟨c.1, c.2, 4, s4 c.1, none⟩ : TaskResult))
            else [])
          ++ ((chapters.filter (fun c => step4FailedP fromStep toStep s4 c.1)).map
              (fun c => skip5Result c.1 c.2)
            ++ order5.map (fun c => (⟨c.1, c.2, 5, s5 c.1, none⟩ : TaskResult))),
        dispatched5 := (chapters.filter
            (fun c => !step4FailedP fromStep toStep s4 c.1)).map
          (fun c => c.1) } := by
      rw [runBatchParallel, if_pos hP5]
      by_cases hP4 : fromStep ≤ 4 ∧ 4 ≤ toStep
      · have hd4s : chapters.countP
            (fun c => decide (fromStep ≤ 4 ∧ 4 ≤ toStep) && s4 c.1)
            = chapters.countP (fun c => s4 c.1) :=
          List.countP_congr fun x hx => by simp [hP4]
        have hd4f : chapters.countP
            (fun c => decide (fromStep ≤ 4 ∧ 4 ≤ toStep) && !s4 c.1)
            = chapters.countP (fun c => !s4 c.1) :=
          List.countP_congr fun x hx => by simp [hP4]
        rw [if_pos hP4,
          collect_map_fold_spec _ (fun c => s5 c.1) (fun _ => rfl) order5,
          submit_fold_spec,
          collect_map_fold_spec _ (fun c => s4 c.1) (fun _ => rfl) order4]
        dsimp only [initBatch]
        rw [hc4s, hc4f, hd4s, hd4f]
        simp only [Nat.zero_add, List.nil_append, List.append_assoc, if_pos hP4]
      · have hz4s : chapters.countP
            (fun c => decide (fromStep ≤ 4 ∧ 4 ≤ toStep) && s4 c.1) = 0 :=
          List.countP_eq_zero.mpr fun x hx => by simp [hP4]
        have hz4f : chapters.countP
            (fun c => decide (fromStep ≤ 4 ∧ 4 ≤ toStep) && !s4 c.1) = 0 :=
          List.countP_eq_zero.mpr fun x hx => by simp [hP4]
        rw [if_neg hP4,
          collect_map_fold_spec _ (fun c => s5 c.1) (fun _ => rfl) order5,
          submit_fold_spec]
        dsimp only [initBatch]
        rw [hz4s, hz4f]
        simp only [Nat.zero_add, List.nil_append, List.append_assoc, if_neg hP4]
    constructor
    · rw [hS, hPar]
      refine ⟨by simp [hc5s], by simp [hc5f], ?_⟩
      simp only
      refine List.countP_congr fun x hx => ?_
      cases hd4 : decide (fromStep ≤ 4 ∧ 4 ≤ toStep) <;>
        cases hs : s4 x.1 <;>
        simp [step4FailedP, hd4, hs, hP5.2]
    · intro c hc hf4 ht5 hs4
      have hP4 : fromStep ≤ 4 ∧ 4 ≤ toStep := ⟨hf4, by omega⟩
      refine ⟨?_, ?_, ?_, ?_⟩
      · rw [hS]
        refine mem_logsOf fromStep toStep s4 s5 chapters c hc _ ?_
        simp [serialChapterLog, hP4, hs4, ht5]
      · rw [hPar]
        refine List.mem_append.mpr (Or.inr (List.mem_append.mpr (Or.inl ?_)))
        exact List.mem_map.mpr ⟨c, List.mem_filter.mpr
          ⟨hc, by simp [step4FailedP, hP4, hs4]⟩, rfl⟩
      · rw [hS]
        intro hmem
        obtain ⟨d, hd, hfst⟩ := List.mem_map.mp hmem
        have hdf := (List.mem_filter.mp hd).2
        simp only [run5b] at hdf
        rw [hfst, hs4] at hdf
        simp [hP4] at hdf
      · rw [hPar]
        intro hmem
        obtain ⟨d, hd, hfst⟩ := List.mem_map.mp hmem
        have hdf := (List.mem_filter.mp hd).2
        simp only [step4FailedP] at hdf
        rw [hfst, hs4] at hdf
        simp [hP4] at hdf
  · -- step 5 not in range: the parallel run is phase 1 only
    have hz5s : chapters.countP
        (fun c => run5b fromStep toStep s4 c && s5 c.1) = 0 :=
      List.countP_eq_zero.mpr fun x hx => by simp [run5b, hP5]
    have hz5f : chapters.countP
        (fun c => run5b fromStep toStep s4 c && !s5 c.1) = 0 :=
      List.countP_eq_zero.mpr fun x hx => by simp [run5b, hP5]
    have hzsk : chapters.countP
        (fun c => decide (fromStep ≤ 4 ∧ 4 ≤ toStep) && !s4 c.1
          && decide (5 ≤ toStep)) = 0 := by
      refine List.countP_eq_zero.mpr fun x hx => ?_
      by_cases hd4 : fromStep ≤ 4 ∧ 4 ≤ toStep
      · have ht5 : ¬ 5 ≤ toStep := fun h => hP5 ⟨by omega, h⟩
        simp [ht5]
      · simp [hd4]
    have hPar : runBatchParallel chapters fromStep toStep s4 s5 order4 order5 =
      { succeeded := chapters.countP
          (fun c => decide (fromStep ≤ 4 ∧ 4 ≤ toStep) && s4 c.1),
        failed := chapters.countP
          (fun c => decide (fromStep ≤ 4 ∧ 4 ≤ toStep) && !s4 c.1),
        skipped := 0,
        taskResults := (if fromStep ≤ 4 ∧ 4 ≤ toStep
            then order4.map (fun c => (⟨c.1, c.2, 4, s4 c.1, none⟩ : TaskResult))
            else []),
        dispatched5 := [] } := by
      rw [runBatchParallel, if_neg hP5]
      by_cases hP4 : fromStep ≤ 4 ∧ 4 ≤ toStep
      · have hd4s : chapters.countP
            (fun c => decide (fromStep ≤ 4 ∧ 4 ≤ toStep) && s4 c.1)
            = chapters.countP (fun c => s4 c.1) :=
          List.countP_congr fun x hx => by simp [hP4]
        have hd4f : chapters.countP
            (fun c => decide (fromStep ≤ 4 ∧ 4 ≤ toStep) && !s4 c.1)
            = chapters.countP (fun c => !s4 c.1) :=
          List.countP_congr fun x hx => by simp [hP4]
        rw [if_pos hP4,
          collect_map_fold_spec _ (fun c => s4 c.1) (fun _ => rfl) order4]
        dsimp only [initBatch]
        rw [hc4s, hc4f, hd4s, hd4f]
        simp only [Nat.zero_add, List.nil_append, if_pos hP4]
      · have hz4s : chapters.countP
            (fun c => decide (fromStep ≤ 4 ∧ 4 ≤ toStep) && s4 c.1) = 0 :=
          List.countP_eq_zero.mpr fun x hx => by simp [hP4]
        have hz4f : chapters.countP
            (fun c => decide (fromStep ≤ 4 ∧ 4 ≤ toStep) && !s4 c.1) = 0 :=
          List.countP_eq_zero.mpr fun x hx => by simp [hP4]
        rw [if_neg hP4, hz4s, hz4f]
        simp only [initBatch, if_neg hP4]
    constructor
    · rw [hS, hPar]
      exact ⟨by simp [hz5s], by simp [hz5f], hzsk.symm⟩
    · intro c hc hf4 ht5 hs4
      exact absurd ⟨by omega, ht5⟩ hP5

/-- Six chapters, step 4 failing for chapter 3 only (the spec's scenario
5), run with `from_step=4, to_step=5`. -/
def c3Chapters : List (Nat × String) :=
  [(1, ("c1")), (2, ("c2")), (3, ("c3")), (4, ("c4")), (5, ("c5")), (6, ("c6"))]

def c3s4 : Nat → Bool := fun cid => cid != 3

def c3s5 : Nat → Bool := fun _ => true

def c3Order4 : List (Nat × String) := c3Chapters.reverse

def c3Order5 : List (Nat × String) :=
  (c3Chapters.filter (fun c => !step4FailedP 4 5 c3s4 c.1)).reverse

/-- Concrete instance of `C3_parallel_matches_serial`: with reversed pool
completion orders, the parallel counters match the serial ones —
`succeeded = 10`, `failed = 1`, `skipped = 1` — and chapter 3 receives the
skip marker without its step-5 task being dispatched. -/
theorem C3_parallel_matches_serial_witness :
    ((runBatchParallel c3Chapters 4 5 c3s4 c3s5 c3Order4 c3Order5).succeeded
        = (runBatchSerial c3Chapters 4 5 c3s4 c3s5).succeeded
      ∧ (runBatchParallel c3Chapters 4 5 c3s4 c3s5 c3Order4 c3Order5).failed
        = (runBatchSerial c3Chapters 4 5 c3s4 c3s5).failed
      ∧ (runBatchParallel c3Chapters 4 5 c3s4 c3s5 c3Order4 c3Order5).skipped
        = (runBatchSerial c3Chapters 4 5 c3s4 c3s5).skipped)
    ∧ (runBatchSerial c3Chapters 4 5 c3s4 c3s5).succeeded = 10
    ∧ (runBatchSerial c3Chapters 4 5 c3s4 c3s5).failed = 1
    ∧ (runBatchSerial c3Chapters 4 5 c3s4 c3s5).skipped = 1
    ∧ skip5Result 3 ("c3") ∈ (runBatchSerial c3Chapters 4 5 c3s4 c3s5).taskResults
    ∧ 3 ∉ (runBatchParallel c3Chapters 4 5 c3s4 c3s5 c3Order4 c3Order5).dispatched5 :=
  have h := C3_parallel_matches_serial c3Chapters 4 5 c3s4 c3s5 c3Order4 c3Order5
    (List.reverse_perm _) (List.reverse_perm _)
  ⟨h.1, by decide, by decide, by decide,
   (h.2 (3, ("c3")) (by decide) (by decide) (by decide) (by decide)).1,
   (h.2 (3, ("c3")) (by decide) (by decide) (by decide) (by decide)).2.2.2⟩

end AiNovel